import Mathlib

/-!
Shallow embedding of the aggregation pipeline of src/interfaces_report.py:
the grouping stage (fetch_interfaces_data, source lines 124-131) and the
per-device report builder (build_interface_report, source lines 146-183).

Modelling choices:
* An interface record is modelled with exactly the attributes the
  aggregation reads (hostname, sn, siteName, l1, l2, reason); the other
  fetched columns are opaque pass-through metadata never inspected by the
  aggregation.  The optional reason field is an Option String, with none
  standing for the JSON null.
* The Python dict that groups records by hostname is modelled as an
  insertion-ordered association list, matching dict semantics: a new key is
  appended at the end, an existing key keeps its position and its list is
  extended in place.
* Report percentages are exact rationals; the two-decimal rounding of the
  Python builtin round(x, 2) is round-half-to-even.
* A Python IndexError (the access data["interfaces"][0] on an empty list)
  is modelled by Option, with none standing for the raised exception.
-/

/-- One interface record, with the attributes read by the aggregation. -/
structure Intf where
  hostname : String
  sn : String
  siteName : String
  l1 : String
  l2 : String
  reason : Option String
  deriving DecidableEq, Repr

/-- Source lines 16-22: the fixed list of admin-down reason strings. -/
def INTERFACE_ADMIN_DOWN_REASON : List String :=
  ["admin", "admin-down", "parent-admin-down", "disable", "disabled"]

/-- Source line 149: i.l1 == "up" and i.l2 == "up". -/
def isUpUp (i : Intf) : Bool := i.l1 == "up" && i.l2 == "up"

/-- Source line 150: i.l1 == "down" and i.l2 == "down". -/
def isDownDown (i : Intf) : Bool := i.l1 == "down" && i.l2 == "down"

/-- Source line 151: i.l1 == "up" and i.l2 == "down". -/
def isUpDown (i : Intf) : Bool := i.l1 == "up" && i.l2 == "down"

/-- Source lines 152-154: l1 not in ["up", "down"] or l2 not in
["up", "down"], the two-element list membership written out as a
disjunction of equality tests. -/
def isUnknown (i : Intf) : Bool :=
  !(i.l1 == "up" || i.l1 == "down") || !(i.l2 == "up" || i.l2 == "down")

/-- The remaining link-state combination, l1 == "down" and l2 == "up",
which none of the four bucket conditions of the source names. -/
def isDownUp (i : Intf) : Bool := i.l1 == "down" && i.l2 == "up"

/-- Source line 155: i["reason"] in INTERFACE_ADMIN_DOWN_REASON.  A None
reason is not a member of a list of strings, hence false. -/
def isAdminDown (i : Intf) : Bool :=
  match i.reason with
  | none => false
  | some r => decide (r ∈ INTERFACE_ADMIN_DOWN_REASON)

/-- Substring test for the literal "err", as the Python expression
"err" in r performs on a string r. -/
def hasErr : List Char → Bool
  | 'e' :: 'r' :: 'r' :: _ => true
  | _ :: cs => hasErr cs
  | [] => false

/-- Source lines 156-158: i.get("reason") is not None and
"err" in i.get("reason", ""). -/
def isErrDisabled (i : Intf) : Bool :=
  match i.reason with
  | none => false
  | some r => hasErr r.toList

/-- One step of the grouping loop of fetch_interfaces_data (source lines
125-129): append the record to the entry of its hostname, or add a fresh
entry at the end, exactly as a Python dict insert does. -/
def addIntf : List (String × List Intf) → Intf → List (String × List Intf)
  | [], i => [(i.hostname, [i])]
  | (h, g) :: rest, i =>
    if h == i.hostname then (h, g ++ [i]) :: rest
    else (h, g) :: addIntf rest i

/-- Source lines 124-131: group the fetched records by hostname, in
first-seen key order (Python dicts preserve insertion order). -/
def fetch_interfaces_data (records : List Intf) : List (String × List Intf) :=
  records.foldl addIntf []

/-- Round a rational to the nearest integer, ties to even: the rounding
mode of the Python builtin round.  The fractional part of q is r over
q.den, so comparing it with one half is comparing 2 * r with q.den. -/
def roundHalfEven (q : ℚ) : ℤ :=
  let f := Int.fdiv q.num q.den
  let r := q.num - f * (q.den : ℤ)
  if 2 * r < (q.den : ℤ) then f
  else if (q.den : ℤ) < 2 * r then f + 1
  else if f % 2 = 0 then f else f + 1

/-- round(x, 2): rounding to two decimal places. -/
def roundTo2 (q : ℚ) : ℚ := (roundHalfEven (q * 100) : ℚ) / 100

/-- Source lines 175-181: round((part / total) * 100, 2) if total > 0
else 0, the guarded percentage expression. -/
def pct (part total : ℕ) : ℚ :=
  if 0 < total then roundTo2 (((part : ℚ) / (total : ℚ)) * 100) else 0

/-- One report row (source lines 163-182).  Field names stand in for the
report column labels, which contain spaces and ampersands: l1l2up is
"l1&l2 up", l1l2down is "l1&l2 down", l1upl2down is "l1 up & l2 down",
l1l2unknown is "l1 and l2 unknown", utilisation is "port utilisation (%)"
and availability is "port availability (%)". -/
structure Row where
  hostname : String
  sn : String
  siteName : String
  total : ℕ
  l1l2up : ℕ
  l1l2down : ℕ
  l1upl2down : ℕ
  l1l2unknown : ℕ
  adminDown : ℕ
  errDisabled : ℕ
  utilisation : ℚ
  availability : ℚ
  deriving DecidableEq, Repr

/-- The loop body of build_interface_report (source lines 147-182) for one
hostname.  On an empty record list the source raises an IndexError at
data["interfaces"][0], modelled as none. -/
def buildRow (hostname : String) (intfs : List Intf) : Option Row :=
  match intfs with
  | [] => none
  | first :: _ =>
    let interfaces_total := intfs.length
    let interfaces_l1up_l2up := (intfs.filter isUpUp).length
    let interfaces_l1down_l2down := (intfs.filter isDownDown).length
    let interfaces_l1up_l2down := (intfs.filter isUpDown).length
    let interfaces_l1l2unknown := (intfs.filter isUnknown).length
    let interfaces_admin_down := (intfs.filter isAdminDown).length
    let interfaces_err_disabled := (intfs.filter isErrDisabled).length
    let count_interfaces_in_use :=
      interfaces_l1up_l2up + interfaces_l1up_l2down + interfaces_l1l2unknown
    let count_interfaces_not_used := interfaces_l1down_l2down
    some {
      hostname := hostname
      sn := first.sn
      siteName := first.siteName
      total := interfaces_total
      l1l2up := interfaces_l1up_l2up
      l1l2down := interfaces_l1down_l2down
      l1upl2down := interfaces_l1up_l2down
      l1l2unknown := interfaces_l1l2unknown
      adminDown := interfaces_admin_down
      errDisabled := interfaces_err_disabled
      utilisation := pct count_interfaces_in_use interfaces_total
      availability := pct count_interfaces_not_used interfaces_total }

/-- build_interface_report (source lines 146-183): one row per grouped
hostname, in dict iteration order; an IndexError anywhere aborts the whole
call, hence the Option result. -/
def build_interface_report (interfaces_dict : List (String × List Intf)) :
    Option (List Row) :=
  interfaces_dict.mapM (fun p => buildRow p.1 p.2)

/-- Concrete record: host A, both layers up. -/
def wUp : Intf :=
  { hostname := "A", sn := "SN1", siteName := "S1", l1 := "up", l2 := "up", reason := none }

/-- Concrete record: host A, both layers down, different serial and site. -/
def wDown : Intf :=
  { hostname := "A", sn := "SN2", siteName := "S2", l1 := "down", l2 := "down", reason := none }

/-- Concrete record: host A, layer 1 down and layer 2 up. -/
def wDownUp : Intf :=
  { hostname := "A", sn := "SN1", siteName := "S1", l1 := "down", l2 := "up", reason := none }

/-- Concrete record with a null reason field. -/
def wNoneReason : Intf :=
  { hostname := "B", sn := "SN3", siteName := "S3", l1 := "up", l2 := "up", reason := none }

/-- Concrete record with reason "disabled" while both layers are up. -/
def wDisabled : Intf :=
  { hostname := "B", sn := "SN4", siteName := "S4", l1 := "up", l2 := "up", reason := some "disabled" }

/-- The report row the source builds for the single record wUp. -/
def wRowUp : Row :=
  { hostname := "A", sn := "SN1", siteName := "S1", total := 1, l1l2up := 1,
    l1l2down := 0, l1upl2down := 0, l1l2unknown := 0, adminDown := 0,
    errDisabled := 0, utilisation := 100, availability := 0 }

/-- The report row the source builds for the pair wUp, wDown. -/
def wRowPair : Row :=
  { hostname := "A", sn := "SN1", siteName := "S1", total := 2, l1l2up := 1,
    l1l2down := 1, l1upl2down := 0, l1l2unknown := 0, adminDown := 0,
    errDisabled := 0, utilisation := 50, availability := 50 }

/-- A string cannot test equal to both literals "up" and "down". -/
theorem up_ne_down {s : String} (h1 : (s == "up") = true)
    (h2 : (s == "down") = true) : False := by
  rw [beq_iff_eq] at h1 h2
  exact absurd (h1 ▸ h2) (by decide)

/-- Pointwise truth table: each record satisfies exactly one of the four
source bucket conditions together with the unnamed down-up combination. -/
theorem bucket_partition (i : Intf) :
    (if isUpUp i then (1 : ℕ) else 0) + (if isDownDown i then 1 else 0)
      + (if isUpDown i then 1 else 0) + (if isUnknown i then 1 else 0)
      + (if isDownUp i then 1 else 0) = 1 := by
  cases h1 : i.l1 == "up" <;> cases h2 : i.l1 == "down" <;>
    cases h3 : i.l2 == "up" <;> cases h4 : i.l2 == "down" <;>
    first
      | exact (up_ne_down h1 h2).elim
      | exact (up_ne_down h3 h4).elim
      | simp [isUpUp, isDownDown, isUpDown, isUnknown, isDownUp, h1, h2, h3, h4]

/-- Counting version of the pointwise truth table. -/
theorem countP_partition (l : List Intf) :
    l.countP isUpUp + l.countP isDownDown + l.countP isUpDown
      + l.countP isUnknown + l.countP isDownUp = l.length := by
  induction l with
  | nil => rfl
  | cons a t ih =>
    have h := bucket_partition a
    simp only [List.countP_cons, List.length_cons]
    omega

/-- The five filtered sublists cover each record exactly once. -/
theorem filter_partition (l : List Intf) :
    (l.filter isUpUp).length + (l.filter isDownDown).length
      + (l.filter isUpDown).length + (l.filter isUnknown).length
      + (l.filter isDownUp).length = l.length := by
  have h := countP_partition l
  simpa [List.countP_eq_length_filter] using h

/-- One grouping step moves the inserted record to the end of the
flattened groups, up to permutation. -/
theorem addIntf_join (acc : List (String × List Intf)) (i : Intf) :
    (((addIntf acc i).map Prod.snd).flatten).Perm
      (((acc.map Prod.snd).flatten) ++ [i]) := by
  induction acc with
  | nil => simp [addIntf]
  | cons p rest ih =>
    obtain ⟨h, g⟩ := p
    by_cases hh : (h == i.hostname) = true
    · simp only [addIntf, hh, if_pos, List.map_cons, List.flatten_cons]
      rw [List.append_assoc, List.append_assoc]
      exact List.Perm.append_left g List.perm_append_comm
    · simp only [addIntf, hh, if_neg, List.map_cons, List.flatten_cons,
        Bool.not_eq_true] at *
      rw [List.append_assoc]
      exact List.Perm.append_left g ih

/-- Folding the grouping step over a record list appends the records, up
to permutation, to the flattened accumulator. -/
theorem foldl_addIntf_join (l : List Intf) :
    ∀ acc : List (String × List Intf),
      (((l.foldl addIntf acc).map Prod.snd).flatten).Perm
        (((acc.map Prod.snd).flatten) ++ l) := by
  induction l with
  | nil => intro acc; simp
  | cons i t ih =>
    intro acc
    simp only [List.foldl_cons]
    refine (ih (addIntf acc i)).trans ?_
    refine ((addIntf_join acc i).append_right t).trans ?_
    rw [List.append_assoc]
    simp

/-- Lookup after one grouping step: the entry of the inserted hostname
gains the record at its end, every other entry is unchanged. -/
theorem lookup_addIntf (acc : List (String × List Intf)) (i : Intf) (k : String) :
    List.lookup k (addIntf acc i) =
      if i.hostname == k then some (((List.lookup k acc).getD []) ++ [i])
      else List.lookup k acc := by
  induction acc with
  | nil =>
    by_cases hk : i.hostname = k
    · simp [addIntf, List.lookup, hk]
    · have e1 : (i.hostname == k) = false := beq_eq_false_iff_ne.mpr hk
      have e2 : (k == i.hostname) = false := beq_eq_false_iff_ne.mpr (Ne.symm hk)
      simp [addIntf, List.lookup, e1, e2]
  | cons p rest ih =>
    obtain ⟨a, g⟩ := p
    by_cases h1 : a = i.hostname
    · have e1 : (a == i.hostname) = true := beq_iff_eq.mpr h1
      by_cases h2 : i.hostname = k
      · have e2 : (k == a) = true := beq_iff_eq.mpr (by rw [h1, h2])
        have e3 : (i.hostname == k) = true := beq_iff_eq.mpr h2
        simp [addIntf, List.lookup, e1, e2, e3]
      · have hak : a ≠ k := by rw [h1]; exact h2
        have e2 : (k == a) = false := beq_eq_false_iff_ne.mpr (Ne.symm hak)
        have e3 : (i.hostname == k) = false := beq_eq_false_iff_ne.mpr h2
        simp [addIntf, List.lookup, e1, e2, e3]
    · have e1 : (a == i.hostname) = false := beq_eq_false_iff_ne.mpr h1
      by_cases h2 : i.hostname = k
      · have hak : a ≠ k := by rw [← h2]; exact h1
        have e2 : (k == a) = false := beq_eq_false_iff_ne.mpr (Ne.symm hak)
        have e3 : (i.hostname == k) = true := beq_iff_eq.mpr h2
        simp [addIntf, List.lookup, e1, e2, e3, ih]
      · have e3 : (i.hostname == k) = false := beq_eq_false_iff_ne.mpr h2
        simp [addIntf, List.lookup, e1, e3, ih]

/-- Lookup after grouping a whole record list: a key is present exactly
when it was present before or some record carries it, and its entry is the
old entry followed by the records filtered on that hostname, in order. -/
theorem lookup_foldl (l : List Intf) :
    ∀ (acc : List (String × List Intf)) (k : String),
      List.lookup k (l.foldl addIntf acc) =
        if (List.lookup k acc).isSome || l.any (fun i => i.hostname == k)
        then some (((List.lookup k acc).getD [])
          ++ l.filter (fun i => i.hostname == k))
        else none := by
  induction l with
  | nil =>
    intro acc k
    cases hl : List.lookup k acc <;> simp [hl]
  | cons i t ih =>
    intro acc k
    simp only [List.foldl_cons]
    rw [ih (addIntf acc i) k, lookup_addIntf]
    by_cases hh : i.hostname = k
    · have e1 : (i.hostname == k) = true := beq_iff_eq.mpr hh
      simp [e1, List.filter_cons, List.any_cons, List.append_assoc]
    · have e1 : (i.hostname == k) = false := beq_eq_false_iff_ne.mpr hh
      rw [e1]
      simp only [List.any_cons, List.filter_cons, e1]
      rw [Bool.false_or]
      rfl

/-- A hostname found in the grouping output holds exactly the input
records with that hostname, in encounter order. -/
theorem lookup_fetch (records : List Intf) (k : String) (g : List Intf)
    (hg : List.lookup k (fetch_interfaces_data records) = some g) :
    g = records.filter (fun i => i.hostname == k) := by
  have h := lookup_foldl records [] k
  rw [fetch_interfaces_data] at hg
  rw [hg] at h
  by_cases ha : (records.any fun i => i.hostname == k) = true
  · simpa [ha] using h
  · simp [ha] at h

/-- find? returns the head of the filtered list. -/
theorem find?_eq_head_filter (p : Intf → Bool) (l : List Intf) :
    l.find? p = (l.filter p).head? := by
  induction l with
  | nil => rfl
  | cons a t ih =>
    by_cases h : p a = true
    · simp [List.filter_cons, h]
    · have h2 : p a = false := by
        cases hpa : p a
        · rfl
        · exact absurd hpa h
      rw [List.find?_cons_of_neg _ h, List.filter_cons, h2, if_neg (by decide)]
      exact ih

/-- The grouping step keeps every group nonempty. -/
theorem addIntf_ne_nil (acc : List (String × List Intf)) (i : Intf)
    (hacc : ∀ p ∈ acc, p.2 ≠ ([] : List Intf)) :
    ∀ p ∈ addIntf acc i, p.2 ≠ ([] : List Intf) := by
  induction acc with
  | nil =>
    intro p hp
    simp only [addIntf, List.mem_singleton] at hp
    subst hp
    simp
  | cons q rest ih =>
    obtain ⟨a, g⟩ := q
    intro p hp
    by_cases h1 : (a == i.hostname) = true
    · simp only [addIntf, h1, if_pos, List.mem_cons] at hp
      rcases hp with hp | hp
      · subst hp; simp
      · exact hacc p (List.mem_cons_of_mem _ hp)
    · simp only [addIntf, h1, if_neg, Bool.not_eq_true, List.mem_cons] at hp
      rcases hp with hp | hp
      · subst hp
        exact hacc (a, g) (List.mem_cons_self _ _)
      · exact ih (fun q hq => hacc q (List.mem_cons_of_mem _ hq)) p hp

/-- Every group produced by the grouping stage is nonempty. -/
theorem fetch_groups_ne_nil (records : List Intf) :
    ∀ p ∈ fetch_interfaces_data records, p.2 ≠ ([] : List Intf) := by
  suffices hs : ∀ (l : List Intf) (acc : List (String × List Intf)),
      (∀ p ∈ acc, p.2 ≠ ([] : List Intf)) →
      ∀ p ∈ l.foldl addIntf acc, p.2 ≠ ([] : List Intf) by
    exact hs records [] (by simp)
  intro l
  induction l with
  | nil =>
    intro acc hacc
    simpa using hacc
  | cons i t ih =>
    intro acc hacc
    simp only [List.foldl_cons]
    exact ih (addIntf acc i) (addIntf_ne_nil acc i hacc)

/-- The row built for a nonempty group records its length as the total. -/
theorem buildRow_total (hn : String) (a : Intf) (t : List Intf) :
    ∃ row, buildRow hn (a :: t) = some row ∧ row.total = t.length + 1 :=
  ⟨_, rfl, rfl⟩

/-- On a dict whose groups are all nonempty, the report builder succeeds
and every row has a positive total. -/
theorem build_report_total (d : List (String × List Intf))
    (hne : ∀ p ∈ d, p.2 ≠ ([] : List Intf)) :
    ∃ rows, build_interface_report d = some rows ∧ ∀ row ∈ rows, 0 < row.total := by
  induction d with
  | nil => exact ⟨[], rfl, by simp⟩
  | cons p rest ih =>
    obtain ⟨hn, g⟩ := p
    cases g with
    | nil => exact absurd rfl (hne (hn, []) (List.mem_cons_self _ _))
    | cons a t =>
      obtain ⟨rows, hrows, htot⟩ := ih (fun q hq => hne q (List.mem_cons_of_mem _ hq))
      obtain ⟨row, hrow, htotal⟩ := buildRow_total hn a t
      refine ⟨row :: rows, ?_, ?_⟩
      · simp only [build_interface_report, List.mapM_cons] at hrows ⊢
        rw [hrow, hrows]
        rfl
      · intro r hr
        rcases List.mem_cons.mp hr with h1 | h2
        · subst h1; omega
        · exact htot r h2

/-- Evaluation of the guarded percentage: one record of one in use. -/
theorem pct_one_one : pct 1 1 = 100 := by norm_num [pct, roundTo2, roundHalfEven]

/-- Evaluation of the guarded percentage: zero records of one. -/
theorem pct_zero_one : pct 0 1 = 0 := by norm_num [pct, roundTo2, roundHalfEven]

/-- Evaluation of the guarded percentage: one record of two. -/
theorem pct_one_two : pct 1 2 = 50 := by norm_num [pct, roundTo2, roundHalfEven]

/-- The row built for the single record wUp. -/
theorem buildRow_wUp_eq : buildRow "A" [wUp] = some wRowUp := by
  have e1 : List.filter isUpUp [wUp] = [wUp] := by decide
  have e2 : List.filter isDownDown [wUp] = [] := by decide
  have e3 : List.filter isUpDown [wUp] = [] := by decide
  have e4 : List.filter isUnknown [wUp] = [] := by decide
  have e5 : List.filter isAdminDown [wUp] = [] := by decide
  have e6 : List.filter isErrDisabled [wUp] = [] := by decide
  simp only [buildRow, e1, e2, e3, e4, e5, e6, List.length_cons, List.length_nil]
  norm_num [wUp, wRowUp, pct_one_one, pct_zero_one]

/-- The row built for the two records wUp and wDown. -/
theorem buildRow_pair_eq : buildRow "A" [wUp, wDown] = some wRowPair := by
  have e1 : List.filter isUpUp [wUp, wDown] = [wUp] := by decide
  have e2 : List.filter isDownDown [wUp, wDown] = [wDown] := by decide
  have e3 : List.filter isUpDown [wUp, wDown] = [] := by decide
  have e4 : List.filter isUnknown [wUp, wDown] = [] := by decide
  have e5 : List.filter isAdminDown [wUp, wDown] = [] := by decide
  have e6 : List.filter isErrDisabled [wUp, wDown] = [] := by decide
  simp only [buildRow, e1, e2, e3, e4, e5, e6, List.length_cons, List.length_nil]
  norm_num [wUp, wRowPair, pct_one_two]

/-- The whole report for the two records wUp and wDown. -/
theorem report_pair_eq :
    build_interface_report (fetch_interfaces_data [wUp, wDown]) = some [wRowPair] := by
  have hf : fetch_interfaces_data [wUp, wDown] = [("A", [wUp, wDown])] := by decide
  rw [hf]
  simp only [build_interface_report, List.mapM_cons, List.mapM_nil]
  rw [buildRow_pair_eq]
  rfl

/-- C1 counterexample: for the single record with l1 = "down" and
l2 = "up", the aggregate has total 1 while the four link-state counters
sum to 0, so the claimed exhaustive partition is false: that record lands
in none of the four buckets. -/
theorem c1_counterexample :
    ((buildRow "A" [wDownUp]).map
      (fun r => decide (r.l1l2up + r.l1l2down + r.l1upl2down + r.l1l2unknown = r.total)))
      = some false := by rfl

/-- C1 amended: for every device aggregate, the four link-state counters
sum to the total minus the number of records with l1 = "down" and
l2 = "up"; those records fall into none of the four buckets, so the
claimed equality holds exactly when no such record is present. -/
theorem c1_link_state_partition (hn : String) (l : List Intf) (row : Row)
    (hrow : buildRow hn l = some row) :
    row.l1l2up + row.l1l2down + row.l1upl2down + row.l1l2unknown
      + (l.filter isDownUp).length = row.total := by
  cases l with
  | nil => simp [buildRow] at hrow
  | cons a t =>
    simp only [buildRow] at hrow
    rw [Option.some_inj] at hrow
    subst hrow
    simpa using filter_partition (a :: t)

/-- Witness for the amended C1 at a concrete aggregate. -/
theorem c1_link_state_partition_witness :
    wRowUp.l1l2up + wRowUp.l1l2down + wRowUp.l1upl2down + wRowUp.l1l2unknown
      + (([wUp] : List Intf).filter isDownUp).length = wRowUp.total :=
  c1_link_state_partition "A" [wUp] wRowUp buildRow_wUp_eq

/-- C2: for every device aggregate with a positive total, the utilisation
percentage is the rounded ratio of the up-up, up-down and unknown counts
to the total, and the availability percentage is the rounded ratio of the
down-down count to the total; the admin-down and err-disabled counts enter
neither numerator. -/
theorem c2_percentage_formulas (hn : String) (l : List Intf) (row : Row)
    (hrow : buildRow hn l = some row) (htot : 0 < row.total) :
    row.utilisation = roundTo2 (((((l.filter isUpUp).length + (l.filter isUpDown).length
        + (l.filter isUnknown).length : ℕ) : ℚ) / ((row.total : ℕ) : ℚ)) * 100)
    ∧ row.availability
      = roundTo2 ((((l.filter isDownDown).length : ℚ) / ((row.total : ℕ) : ℚ)) * 100) := by
  cases l with
  | nil => simp [buildRow] at hrow
  | cons a t =>
    simp only [buildRow] at hrow
    rw [Option.some_inj] at hrow
    subst hrow
    constructor <;> simp [pct]

/-- Witness for C2 at the concrete aggregate of the single record wUp. -/
theorem c2_percentage_formulas_witness :
    wRowUp.utilisation = roundTo2 ((((([wUp].filter isUpUp).length
        + ([wUp].filter isUpDown).length + ([wUp].filter isUnknown).length : ℕ) : ℚ)
        / ((wRowUp.total : ℕ) : ℚ)) * 100) :=
  (c2_percentage_formulas "A" [wUp] wRowUp buildRow_wUp_eq (by decide)).1

/-- C3 counterexample: on a device with an empty record list the report
builder does not yield a row with zero percentages; it fails (the source
raises an IndexError at the first-record serial access). -/
theorem c3_counterexample : build_interface_report [("A", [])] = none := by rfl

/-- C3 amended: the percentage expression itself is guarded, so a zero
total yields 0 with no division; but build_interface_report never emits
such a row, because on an empty record list it fails at the first-record
serial access before the percentages are assembled. -/
theorem c3_zero_guard :
    (∀ c : ℕ, pct c 0 = 0) ∧ ∀ hn : String, buildRow hn [] = none :=
  ⟨fun _ => rfl, fun _ => rfl⟩

/-- C4: a record is counted err-disabled exactly when its reason is
present and contains the substring "err"; a record with a null reason
counts toward neither the err-disabled nor the admin-down counter. -/
theorem c4_reason_null_safety (i : Intf) :
    (isErrDisabled i = true ↔ ∃ r, i.reason = some r ∧ hasErr r.toList = true)
    ∧ (i.reason = none → isAdminDown i = false ∧ isErrDisabled i = false) := by
  constructor
  · cases hr : i.reason with
    | none => simp [isErrDisabled, hr]
    | some r => simp [isErrDisabled, hr]
  · intro hn
    simp [isAdminDown, isErrDisabled, hn]

/-- Witness for C4 at a concrete record with a null reason. -/
theorem c4_reason_null_safety_witness :
    isAdminDown wNoneReason = false ∧ isErrDisabled wNoneReason = false :=
  (c4_reason_null_safety wNoneReason).2 rfl

/-- C5: a record is counted admin-down exactly when its reason is one of
the five enumerated strings, and the check reads nothing but the reason
field, hence is independent of the l1 and l2 values. -/
theorem c5_admin_down_membership (i : Intf) :
    (isAdminDown i = true ↔ ∃ r, i.reason = some r ∧ r ∈ INTERFACE_ADMIN_DOWN_REASON)
    ∧ ∀ j : Intf, j.reason = i.reason → isAdminDown j = isAdminDown i := by
  constructor
  · cases hr : i.reason with
    | none => simp [isAdminDown, hr]
    | some r => simp [isAdminDown, hr]
  · intro j hj
    simp [isAdminDown, hj]

/-- Witness for C5 at a concrete record with reason "disabled" and both
layers up. -/
theorem c5_admin_down_membership_witness : isAdminDown wDisabled = true :=
  (c5_admin_down_membership wDisabled).1.mpr ⟨"disabled", rfl, by decide⟩

/-- C6: the concatenation of the grouped per-hostname record lists, in
first-seen hostname order with encounter order kept inside each group, is
a permutation of (equal as a multiset to) the input sequence: the grouping
stage drops no record and duplicates no record. -/
theorem c6_grouping_is_permutation (records : List Intf) :
    (((fetch_interfaces_data records).map Prod.snd).flatten).Perm records := by
  have h := foldl_addIntf_join records []
  simpa [fetch_interfaces_data] using h

/-- C7: the serial number and site name of a device aggregate are those of
the first-seen record of that hostname. -/
theorem c7_first_seen (records : List Intf) (k : String) (g : List Intf)
    (row : Row) (first : Intf)
    (hfind : records.find? (fun i => i.hostname == k) = some first)
    (hg : List.lookup k (fetch_interfaces_data records) = some g)
    (hrow : buildRow k g = some row) :
    row.sn = first.sn ∧ row.siteName = first.siteName := by
  have hgf := lookup_fetch records k g hg
  rw [find?_eq_head_filter, ← hgf] at hfind
  cases g with
  | nil => simp [buildRow] at hrow
  | cons a t =>
    simp only [List.head?_cons, Option.some_inj] at hfind
    subst hfind
    simp only [buildRow] at hrow
    rw [Option.some_inj] at hrow
    subst hrow
    exact ⟨rfl, rfl⟩

/-- Witness for C7: two records of host A with different serial and site;
the aggregate keeps the first-seen values. -/
theorem c7_first_seen_witness :
    wRowPair.sn = wUp.sn ∧ wRowPair.siteName = wUp.siteName :=
  c7_first_seen [wUp, wDown] "A" [wUp, wDown] wRowPair wUp
    (by decide) (by decide) buildRow_pair_eq

/-- C8: for the two-record input of host A with one up-up record and one
down-down record, the aggregate has total 2, one record in each of the two
buckets, utilisation 50 and availability 50. -/
theorem c8_two_record_example :
    build_interface_report (fetch_interfaces_data [wUp, wDown]) = some [wRowPair]
    ∧ wRowPair.total = 2 ∧ wRowPair.l1l2up = 1 ∧ wRowPair.l1l2down = 1
    ∧ wRowPair.utilisation = 50 ∧ wRowPair.availability = 50 :=
  ⟨report_pair_eq, rfl, rfl, rfl, rfl, rfl⟩

/-- C9: the four link-state buckets are pairwise disjoint pointwise — no
record satisfies two bucket conditions at once — and hence the four
counters of every aggregate sum to at most the total. -/
theorem c9_buckets_disjoint (hn : String) (l : List Intf) (row : Row)
    (hrow : buildRow hn l = some row) :
    (∀ i ∈ l, (if isUpUp i then (1 : ℕ) else 0) + (if isDownDown i then 1 else 0)
        + (if isUpDown i then 1 else 0) + (if isUnknown i then 1 else 0) ≤ 1)
    ∧ row.l1l2up + row.l1l2down + row.l1upl2down + row.l1l2unknown ≤ row.total := by
  constructor
  · intro i _
    have h := bucket_partition i
    omega
  · cases l with
    | nil => simp [buildRow] at hrow
    | cons a t =>
      simp only [buildRow] at hrow
      rw [Option.some_inj] at hrow
      subst hrow
      have h := filter_partition (a :: t)
      simp only []
      omega

/-- Witness for C9 at the concrete aggregate of the single record wUp. -/
theorem c9_buckets_disjoint_witness :
    wRowUp.l1l2up + wRowUp.l1l2down + wRowUp.l1upl2down + wRowUp.l1l2unknown
      ≤ wRowUp.total :=
  (c9_buckets_disjoint "A" [wUp] wRowUp buildRow_wUp_eq).2

/-- C10: every group the grouping stage produces is nonempty, so the
report builder succeeds on grouped input — the first-record access cannot
fail — and every emitted row has a positive total, making the zero-total
guard branch unreachable there. -/
theorem c10_groups_nonempty (records : List Intf) :
    (∀ p ∈ fetch_interfaces_data records, p.2 ≠ ([] : List Intf))
    ∧ ∃ rows, build_interface_report (fetch_interfaces_data records) = some rows
        ∧ ∀ row ∈ rows, 0 < row.total :=
  ⟨fetch_groups_ne_nil records,
    build_report_total (fetch_interfaces_data records) (fetch_groups_ne_nil records)⟩

/-- Witness for C10 at a concrete one-record input. -/
theorem c10_groups_nonempty_witness :
    (("A", [wUp]) : String × List Intf).2 ≠ ([] : List Intf) :=
  (c10_groups_nonempty [wUp]).1 ("A", [wUp]) (by decide)
